import Mathlib

/-!
# VentVault — verification of the vent-request pipeline

Shallow embedding of the VentVault frontend API client
(`frontend/lib/api-client.ts`: `streamVent`, `checkHealth`, `clearSession`,
session/user storage) and of the vent page submit handler
(`frontend/app/vent/page.tsx`: `handleRelease`), together with
spec-modelled definitions for the backend PII scrubber and rate limiter
whose Python sources are not part of the frontend tree.

JavaScript strings are modelled as `List Char`; browser storages as
association lists; a `fetch` result as `Except` (a thrown error carries
its message); the streamed response body as a list of already-decoded
text chunks, exactly as consumed by the `reader.read()` loop.
-/

namespace VentVault

/-- JavaScript strings are modelled as lists of characters. -/
abbrev Str := List Char

/-- `mapHead f l` applies `f` to the head of `l` only. -/
def mapHead (f : Str → Str) : List Str → List Str
  | [] => []
  | x :: xs => f x :: xs

/-- JavaScript `s.split("\n")`: split a string at every newline character.
The result always has at least one element; splitting `"a\n"` yields
`["a", ""]`, like the JS method. -/
def splitNL : Str → List Str
  | [] => [[]]
  | c :: rest =>
    if c = '\n' then [] :: splitNL rest
    else mapHead (fun l => c :: l) (splitNL rest)

/-! ## Data model (api-client.ts) -/
/-- `VentRequest` mode: the TypeScript union `"text" | "voice"`. -/
inductive Mode where
  | text
  | voice
deriving DecidableEq, Repr

/-- `VentRequest` — request body `{mode, content}` of `POST /api/vent`. -/
structure VentRequest where
  mode : Mode
  content : Str
deriving DecidableEq, Repr

/-- `VentMetadata` — `{sessionId, userId, remainingVents}` passed to
`onComplete`. `remainingVents` is a JS number obtained from `parseInt`;
`none` models `NaN`. -/
structure VentMetadata where
  sessionId : Str
  userId : Str
  remainingVents : Option Int
deriving DecidableEq, Repr

/-- Response headers as an association list in arrival order. -/
abbrev Headers := List (Str × Str)

/-- `headers.get(k)`: first value bound to `k`, `none` for a missing
header (JS `null`). -/
def headersGet : Headers → Str → Option Str
  | [], _ => none
  | (k', v) :: rest, k => if k' = k then some v else headersGet rest k

/-- A resolved `fetch` response: status, headers, and the streamed body as
a list of already-decoded text chunks (`none` models a `null` body, which
makes `response.body?.getReader()` yield `undefined`). -/
structure Response where
  status : Nat
  headers : Headers
  body : Option (List Str)
deriving DecidableEq, Repr

/-- `response.ok` — status in the 2xx range, per the Fetch standard. -/
def Response.ok (r : Response) : Bool :=
  decide (200 ≤ r.status) && decide (r.status ≤ 299)

/-- Browser storage: `sessionStorage` and `localStorage` as association
lists from key to value. -/
structure BrowserState where
  sessionStore : List (Str × Str)
  localStore : List (Str × Str)
deriving DecidableEq, Repr

/-- `storage.getItem(k)` — `none` models `null`. -/
def getItem : List (Str × Str) → Str → Option Str
  | [], _ => none
  | (k', v) :: rest, k => if k' = k then some v else getItem rest k

/-- `storage.setItem(k, v)` — replace in place or append. -/
def setItem : List (Str × Str) → Str → Str → List (Str × Str)
  | [], k, v => [(k, v)]
  | (k', v') :: rest, k, v =>
    if k' = k then (k, v) :: rest else (k', v') :: setItem rest k v

/-- `storage.removeItem(k)`. -/
def removeItem (m : List (Str × Str)) (k : Str) : List (Str × Str) :=
  m.filter (fun p => decide (p.1 ≠ k))

/-- `SESSION_ID_KEY = "ventvault_session_id"` (sessionStorage). -/
def SESSION_ID_KEY : Str := "ventvault_session_id".data

/-- `USER_ID_KEY = "ventvault_user_id"` (localStorage). -/
def USER_ID_KEY : Str := "ventvault_user_id".data

/-- `getStoredSessionId()` — read the session id from `sessionStorage`. -/
def getStoredSessionId (st : BrowserState) : Option Str :=
  getItem st.sessionStore SESSION_ID_KEY

/-- `storeSessionId(sessionId)` — write the session id to `sessionStorage`. -/
def storeSessionId (st : BrowserState) (sessionId : Str) : BrowserState :=
  { st with sessionStore := setItem st.sessionStore SESSION_ID_KEY sessionId }

/-- `storeUserId(userId)` — write the user id to `localStorage`. -/
def storeUserId (st : BrowserState) (userId : Str) : BrowserState :=
  { st with localStore := setItem st.localStore USER_ID_KEY userId }

/-- `clearSession()` — remove the session id from `sessionStorage`. -/
def clearSession (st : BrowserState) : BrowserState :=
  { st with sessionStore := removeItem st.sessionStore SESSION_ID_KEY }

/-! ## JavaScript `parseInt` -/
/-- JS `StrWhiteSpace` characters skipped by `parseInt` (ASCII part). -/
def jsWS (c : Char) : Bool :=
  c = ' ' || c = '\t' || c = '\n' || c = '\r' || c = '\x0b' || c = '\x0c'

/-- Decimal digit value. -/
def digitVal (c : Char) : Option Nat :=
  if '0' ≤ c ∧ c ≤ '9' then some (c.toNat - '0'.toNat) else none

/-- Hexadecimal digit value. -/
def hexVal (c : Char) : Option Nat :=
  if '0' ≤ c ∧ c ≤ '9' then some (c.toNat - '0'.toNat)
  else if 'a' ≤ c ∧ c ≤ 'f' then some (c.toNat - 'a'.toNat + 10)
  else if 'A' ≤ c ∧ c ≤ 'F' then some (c.toNat - 'A'.toNat + 10)
  else none

/-- Accumulate the longest prefix of digits; `none` when no digit was
consumed (`NaN`). -/
def parseDigits (base : Nat) (val : Char → Option Nat) :
    Str → Option Nat → Option Nat
  | [], acc => acc
  | c :: rest, acc =>
    match val c with
    | some d => parseDigits base val rest (some ((acc.getD 0) * base + d))
    | none => acc

/-- JavaScript `parseInt(s)` with the radix argument omitted: skip
whitespace, optional sign, then base 10 — except that a `0x`/`0X` prefix
switches to base 16. `none` models `NaN`. -/
def parseIntJS (s : Str) : Option Int :=
  let s1 := s.dropWhile (fun c => jsWS c)
  let signAndRest : Int × Str :=
    match s1 with
    | '-' :: r => (-1, r)
    | '+' :: r => (1, r)
    | r => (1, r)
  let baseAndRest : Nat × Str :=
    match signAndRest.2 with
    | '0' :: 'x' :: r => (16, r)
    | '0' :: 'X' :: r => (16, r)
    | r => (10, r)
  let digits :=
    parseDigits baseAndRest.1
      (if baseAndRest.1 = 16 then hexVal else digitVal) baseAndRest.2 none
  digits.map (fun n => signAndRest.1 * (n : Int))

/-- The spec sentence "the base-10 integer parse of the X-Remaining-Vents
response header" as a definition: same as `parseIntJS` but always base 10,
with no hexadecimal-prefix exception. Used only to compare the claim's
wording with the code's `parseInt`. -/
def specBase10Parse (s : Str) : Option Int :=
  let s1 := s.dropWhile (fun c => jsWS c)
  let signAndRest : Int × Str :=
    match s1 with
    | '-' :: r => (-1, r)
    | '+' :: r => (1, r)
    | r => (1, r)
  (parseDigits 10 digitVal signAndRest.2 none).map
    (fun n => signAndRest.1 * (n : Int))

/-- JS `a || b` on a nullable string: `b` when `a` is `null` or empty. -/
def jsOrStr (o : Option Str) (d : Str) : Str :=
  match o with
  | some s => if s = [] then d else s
  | none => d

/-! ## JSON serialization of the request body -/
/-- One hexadecimal digit. -/
def hexDigit (n : Nat) : Char :=
  if n < 10 then Char.ofNat ('0'.toNat + n) else Char.ofNat ('a'.toNat + n - 10)

/-- `JSON.stringify` escaping for one character inside a string literal. -/
def jsonEscapeChar (c : Char) : Str :=
  if c = '"' then ['\\', '"']
  else if c = '\\' then ['\\', '\\']
  else if c = '\n' then ['\\', 'n']
  else if c = '\r' then ['\\', 'r']
  else if c = '\t' then ['\\', 't']
  else if c = '\x08' then ['\\', 'b']
  else if c = '\x0c' then ['\\', 'f']
  else if c.toNat < 32 then
    ['\\', 'u', '0', '0', hexDigit (c.toNat / 16), hexDigit (c.toNat % 16)]
  else [c]

/-- A JSON string literal with its quotes. -/
def jsonQuote (s : Str) : Str :=
  '"' :: s.foldr (fun c acc => jsonEscapeChar c ++ acc) ['"']

/-- The text of the `mode` field. -/
def modeStr : Mode → Str
  | .text => "text".data
  | .voice => "voice".data

/-- `JSON.stringify(request)` for a `VentRequest`: field insertion order is
`mode` then `content`. -/
def stringifyVentRequest (r : VentRequest) : Str :=
  ['\x7b'] ++ jsonQuote "mode".data ++ [':'] ++ jsonQuote (modeStr r.mode) ++
    [','] ++ jsonQuote "content".data ++ [':'] ++ jsonQuote r.content ++ ['\x7d']

/-! ## The SSE read loop of `streamVent` -/
/-- A callback invocation observed during one `streamVent` call. -/
inductive Event where
  | token (s : Str)
  | complete (m : VentMetadata)
  | error (msg : Str)
deriving DecidableEq, Repr

def Event.isToken : Event → Bool
  | .token _ => true
  | _ => false

def Event.isComplete : Event → Bool
  | .complete _ => true
  | _ => false

def Event.isError : Event → Bool
  | .error _ => true
  | _ => false

/-- The token payload of an event, when it is one. -/
def Event.tokenOf : Event → Option Str
  | .token s => some s
  | _ => none

/-- How the line-processing loop left off. -/
inductive StreamStatus where
  | more
  | finished
  | failed
deriving DecidableEq, Repr

/-- Message of the error thrown on a `data: [ERROR]` line. -/
def llmErrMsg : Str := "LLM streaming error".data

/-- Message of the error thrown on HTTP 429. -/
def limitMsg : Str := "Daily vent limit reached. Sign in for more vents.".data

/-- Message of the error thrown when `response.body` is `null`. -/
def noBodyMsg : Str := "No response body".data

/-- The inner `for (const line of lines)` loop: lines starting with
`"data: "` carry a payload `line.slice(6)`; `[DONE]` invokes `onComplete`
and returns, `[ERROR]` throws (surfacing as `onError`), anything else goes
to `onToken`; other lines are skipped. -/
def processLines (meta : VentMetadata) : List Str → List Event × StreamStatus
  | [] => ([], .more)
  | line :: rest =>
    if "data: ".data.isPrefixOf line then
      let d := line.drop 6
      if d = "[DONE]".data then ([Event.complete meta], .finished)
      else if d = "[ERROR]".data then ([Event.error llmErrMsg], .failed)
      else
        let r := processLines meta rest
        (Event.token d :: r.1, r.2)
    else processLines meta rest

/-- The outer `while (true)` read loop: append each chunk to the carry
buffer, split on newlines, keep the trailing incomplete line
(`lines.pop() || ""`) as the new buffer, and process the complete lines.
A `done` read simply breaks with no further callback. -/
def runStream (meta : VentMetadata) : Str → List Str → List Event × StreamStatus
  | _, [] => ([], .more)
  | buffer, chunk :: rest =>
    let parts := splitNL (buffer ++ chunk)
    let r := processLines meta parts.dropLast
    match r.2 with
    | .more =>
      let r2 := runStream meta (parts.getLastD []) rest
      (r.1 ++ r2.1, r2.2)
    | s => (r.1, s)

/-! ## `streamVent` -/
/-- The single HTTP request issued by `streamVent`: path, request headers
and serialized body. -/
structure RequestRecord where
  path : Str
  headers : Headers
  body : Str
deriving DecidableEq, Repr

/-- Everything observable about one `streamVent` invocation: the requests
it issued, the callback invocations in order, and the browser storage
afterwards. -/
structure StreamOutcome where
  requests : List RequestRecord
  events : List Event
  state : BrowserState
deriving DecidableEq, Repr

/-- Request headers built at the top of `streamVent`: `Content-Type`
always; `X-Session-ID` when a non-empty session id is stored;
`Authorization: Bearer <token>` when an auth getter is installed and
returns a non-empty token. -/
def requestHeaders (st : BrowserState) (auth : Option (Option Str)) : Headers :=
  let base : Headers := [("Content-Type".data, "application/json".data)]
  let withSession :=
    match getStoredSessionId st with
    | some s => if s = [] then base else base ++ [("X-Session-ID".data, s)]
    | none => base
  match auth with
  | some (some t) =>
    if t = [] then withSession
    else withSession ++ [("Authorization".data, "Bearer ".data ++ t)]
  | _ => withSession

/-- The `VentMetadata` extracted from the response headers (lines 101–103
of api-client.ts): `X-Session-ID` and `X-User-ID` default to `""`,
`X-Remaining-Vents` goes through `parseInt(… || "0")`. -/
def responseMeta (resp : Response) : VentMetadata :=
  { sessionId := (headersGet resp.headers "X-Session-ID".data).getD []
    userId := (headersGet resp.headers "X-User-ID".data).getD []
    remainingVents :=
      parseIntJS (jsOrStr (headersGet resp.headers "X-Remaining-Vents".data) "0".data) }

/-- `streamVent(request, onToken, onComplete, onError)`.

Inputs beyond the request: the browser storage, the installed auth-token
getter (`none`: not installed; `some t`: installed, returning `t`), and
the `fetch` result (`Except.error msg` models a rejected fetch whose
error message is `msg`). The callbacks are returned as an event trace. -/
def streamVent (st : BrowserState) (auth : Option (Option Str))
    (fr : Except Str Response) (req : VentRequest) : StreamOutcome :=
  let reqRec : RequestRecord :=
    { path := "/api/vent".data
      headers := requestHeaders st auth
      body := stringifyVentRequest req }
  match fr with
  | .error msg => { requests := [reqRec], events := [Event.error msg], state := st }
  | .ok resp =>
    if resp.ok then
      let meta := responseMeta resp
      let st1 := if meta.sessionId = [] then st else storeSessionId st meta.sessionId
      let st2 := if meta.userId = [] then st1 else storeUserId st1 meta.userId
      match resp.body with
      | none =>
        { requests := [reqRec], events := [Event.error noBodyMsg], state := st2 }
      | some chunks =>
        { requests := [reqRec]
          events := (runStream meta [] chunks).1
          state := st2 }
    else if resp.status = 429 then
      { requests := [reqRec], events := [Event.error limitMsg], state := st }
    else
      { requests := [reqRec]
        events := [Event.error ("API error: ".data ++ (Nat.repr resp.status).data)]
        state := st }

/-! ## `handleRelease` (vent page submit handler) and `checkHealth` -/
/-- JS whitespace removed by `String.prototype.trim` (ASCII part plus the
common Unicode space characters). -/
def jsTrimWS (c : Char) : Bool :=
  jsWS c || c.toNat = 0xA0 || c.toNat = 0x2028 || c.toNat = 0x2029 ||
    c.toNat = 0xFEFF

/-- JavaScript `s.trim()`. -/
def jsTrim (s : Str) : Str :=
  (s.dropWhile (fun c => jsTrimWS c)).reverse.dropWhile (fun c => jsTrimWS c)
    |>.reverse

/-- `handleRelease` from the vent page: bail out when the trimmed vent
text is empty, otherwise submit a `mode: "text"` request with the typed
content unchanged. Returns the request handed to `streamVent`, if any. -/
def handleRelease (ventText : Str) : Option VentRequest :=
  if jsTrim ventText = [] then none
  else some { mode := Mode.text, content := ventText }

/-- A parsed JSON value (the result of `response.json()`). -/
inductive Json where
  | null
  | jbool (b : Bool)
  | jnum (n : Int)
  | jstr (s : Str)
  | jobj (fields : List (Str × Json))

/-- Property access `obj[k]` on a parsed JSON value: `none` models
`undefined` (missing field or non-object). -/
def Json.get : Json → Str → Option Json
  | .jobj fields, k => (fields.find? (fun p => decide (p.1 = k))).map (fun p => p.2)
  | _, _ => none

/-- JS `v === "<s>"` where `v` may be `undefined`: true only for a string
with exactly that text. -/
def optIsStr (o : Option Json) (s : Str) : Bool :=
  match o with
  | some (.jstr t) => decide (t = s)
  | _ => false

/-- `checkHealth()`: `true` when the parsed `/health` body has status
`"healthy"` or `"degraded"`; every thrown error (fetch or JSON parsing)
is caught and yields `false`. -/
def checkHealth (fr : Except Unit Json) : Bool :=
  match fr with
  | .error _ => false
  | .ok data =>
    optIsStr (data.get "status".data) "healthy".data ||
      optIsStr (data.get "status".data) "degraded".data

/-! ## Stream-level view of the SSE framing

These definitions restate the claims' vocabulary — "complete
newline-terminated line", "payload", "sentinel" — over the whole
concatenated byte stream, to be related to the chunk-by-chunk loop. -/
/-- The whole body stream as one string. -/
def joinChunks (chunks : List Str) : Str :=
  chunks.foldr (fun a b => a ++ b) []

/-- The complete (newline-terminated) lines of a stream: everything but
the trailing unterminated fragment. -/
def completeLines (s : Str) : List Str :=
  (splitNL s).dropLast

/-- Payload of an SSE data line: the line minus the 6-character
`"data: "` prefix; `none` for lines not starting with `"data: "`. -/
def linePayload (line : Str) : Option Str :=
  if "data: ".data.isPrefixOf line then some (line.drop 6) else none

/-- Payloads of the data lines, in stream order. -/
def payloadsOf (lines : List Str) : List Str :=
  lines.filterMap linePayload

/-- Is this payload one of the two terminal sentinels? -/
def isSentinel (d : Str) : Bool :=
  decide (d = "[DONE]".data) || decide (d = "[ERROR]".data)

/-- The payloads forwarded as tokens: everything before the first
sentinel. -/
def tokensBeforeSentinel (ds : List Str) : List Str :=
  ds.takeWhile (fun d => ! isSentinel d)

/-- Which sentinel, if any, terminates the stream. -/
inductive Sentinel where
  | done
  | err
deriving DecidableEq, Repr

/-- The first sentinel among the payloads. -/
def firstSentinel : List Str → Option Sentinel
  | [] => none
  | d :: rest =>
    if d = "[DONE]".data then some .done
    else if d = "[ERROR]".data then some .err
    else firstSentinel rest

/-- Terminal callback events corresponding to a sentinel. -/
def termEvents (meta : VentMetadata) : Option Sentinel → List Event
  | none => []
  | some .done => [Event.complete meta]
  | some .err => [Event.error llmErrMsg]

/-- Loop status corresponding to a sentinel. -/
def termStatus : Option Sentinel → StreamStatus
  | none => .more
  | some .done => .finished
  | some .err => .failed

/-! ## PII scrubber

Modelled from the spec: the backend module `app/pii_scrubber.py` is not
part of the source tree (only the backend README names it). The spec
says it "applies an ordered list of pattern substitutions (emails, phone
numbers, SSNs, card numbers, IPs, dates) to inbound text before it is
forwarded or logged", deterministically and statelessly. The individual
recognizers below are simplified stand-ins for the unknown regexes; the
ordered-substitution pipeline is the spec's structure. -/
/-- Replace every match of `matchLen` (which reports the length of a
match starting at the given suffix) by `repl`, scanning left to right.
`fuel` bounds recursion and is instantiated with the text length. -/
def scrubWithFuel (matchLen : Str → Option Nat) (repl : Str) :
    Nat → Str → Str
  | 0, s => s
  | _ + 1, [] => []
  | fuel + 1, c :: rest =>
    match matchLen (c :: rest) with
    | some (n + 1) => repl ++ scrubWithFuel matchLen repl fuel (List.drop n rest)
    | _ => c :: scrubWithFuel matchLen repl fuel rest

/-- One pattern substitution pass over a text. -/
def scrubWith (matchLen : Str → Option Nat) (repl : Str) (s : Str) : Str :=
  scrubWithFuel matchLen repl s.length s

/-- Characters allowed in the local part of an email. -/
def emailLocalChar (c : Char) : Bool :=
  c.isAlphanum || c = '.' || c = '_' || c = '%' || c = '+' || c = '-'

/-- Characters allowed in the domain part of an email. -/
def emailDomChar (c : Char) : Bool :=
  c.isAlphanum || c = '.' || c = '-'

/-- `Modelled from the spec:` email pattern — local part, `@`, domain
containing a dot. -/
def matchEmail (s : Str) : Option Nat :=
  let l := (s.takeWhile emailLocalChar).length
  if l = 0 then none
  else
    match List.drop l s with
    | '@' :: r1 =>
      let d := (r1.takeWhile emailDomChar).length
      if d = 0 then none
      else if '.' ∈ r1.take d then some (l + 1 + d) else none
    | _ => none

/-- `Modelled from the spec:` phone pattern — `ddd-ddd-dddd`. -/
def matchPhone : Str → Option Nat
  | a :: b :: c :: '-' :: d :: e :: f :: '-' :: g :: h :: i :: j :: _ =>
    if a.isDigit && b.isDigit && c.isDigit && d.isDigit && e.isDigit &&
        f.isDigit && g.isDigit && h.isDigit && i.isDigit && j.isDigit then
      some 12
    else none
  | _ => none

/-- `Modelled from the spec:` SSN pattern — `ddd-dd-dddd`. -/
def matchSSN : Str → Option Nat
  | a :: b :: c :: '-' :: d :: e :: '-' :: f :: g :: h :: i :: _ =>
    if a.isDigit && b.isDigit && c.isDigit && d.isDigit && e.isDigit &&
        f.isDigit && g.isDigit && h.isDigit && i.isDigit then
      some 11
    else none
  | _ => none

/-- `Modelled from the spec:` card pattern — a run of 13 to 16 digits. -/
def matchCard (s : Str) : Option Nat :=
  let d := (s.takeWhile Char.isDigit).length
  if 13 ≤ d ∧ d ≤ 16 then some d else none

/-- `Modelled from the spec:` IPv4 pattern — four digit runs joined by
dots. -/
def matchIP (s : Str) : Option Nat :=
  let d1 := (s.takeWhile Char.isDigit).length
  if d1 = 0 then none
  else
    match List.drop d1 s with
    | '.' :: r1 =>
      let d2 := (r1.takeWhile Char.isDigit).length
      if d2 = 0 then none
      else
        match List.drop d2 r1 with
        | '.' :: r2 =>
          let d3 := (r2.takeWhile Char.isDigit).length
          if d3 = 0 then none
          else
            match List.drop d3 r2 with
            | '.' :: r3 =>
              let d4 := (r3.takeWhile Char.isDigit).length
              if d4 = 0 then none else some (d1 + 1 + d2 + 1 + d3 + 1 + d4)
            | _ => none
        | _ => none
    | _ => none

/-- `Modelled from the spec:` date pattern — `dd/dd/dddd`. -/
def matchDate : Str → Option Nat
  | a :: b :: '/' :: c :: d :: '/' :: e :: f :: g :: h :: _ =>
    if a.isDigit && b.isDigit && c.isDigit && d.isDigit && e.isDigit &&
        f.isDigit && g.isDigit && h.isDigit then
      some 10
    else none
  | _ => none

/-- The ordered list of pattern substitutions of the PII scrubber:
emails, phone numbers, SSNs, card numbers, IPs, dates. -/
def piiPatterns : List ((Str → Option Nat) × Str) :=
  [(matchEmail, "[EMAIL]".data), (matchPhone, "[PHONE]".data),
    (matchSSN, "[SSN]".data), (matchCard, "[CARD]".data),
    (matchIP, "[IP]".data), (matchDate, "[DATE]".data)]

/-- `Modelled from the spec:` `scrub_pii` — apply the ordered pattern
substitutions to the inbound text. Stateless and total. -/
def scrubPII (text : Str) : Str :=
  piiPatterns.foldl (fun t p => scrubWith p.1 p.2 t) text

/-- What the vent pipeline does with inbound text before the LLM call
and before logging: both see only the scrubbed text. -/
structure VentPipeline where
  forwardedToLLM : Str
  loggedText : Str
deriving DecidableEq, Repr

/-- `Modelled from the spec:` the backend hot path scrubs PII from the
inbound vent text, then forwards the cleaned text to the LLM and uses
only the cleaned text for logging. -/
def processVentText (content : Str) : VentPipeline :=
  let cleaned := scrubPII content
  { forwardedToLLM := cleaned, loggedText := cleaned }

/-! ## Rate limiter

Modelled from the spec: the backend module `app/rate_limiter.py` is not
part of the source tree. The spec's data model: "RateLimitCounter: keyed
by anonymous-device-hash or user-id, integer count with 24h expiry.
Lifecycle: created on first request of the day, incremented per request,
expires automatically." -/
/-- A cache entry: integer count plus absolute expiry time (seconds). -/
structure CacheEntry where
  count : Nat
  expiresAt : Nat
deriving DecidableEq, Repr

/-- The shared cache, keyed by identity. -/
abbrev RLCache := List (Str × CacheEntry)

/-- 24 hours, in seconds. -/
def DAY_SECONDS : Nat := 86400

def cacheLookup : RLCache → Str → Option CacheEntry
  | [], _ => none
  | (k', e) :: rest, k => if k' = k then some e else cacheLookup rest k

def cacheSet : RLCache → Str → CacheEntry → RLCache
  | [], k, e => [(k, e)]
  | (k', e') :: rest, k, e =>
    if k' = k then (k, e) :: rest else (k', e') :: cacheSet rest k e

/-- The entry visible at time `now`: an entry past its expiry has been
evicted automatically. -/
def liveEntry (cache : RLCache) (key : Str) (now : Nat) : Option CacheEntry :=
  match cacheLookup cache key with
  | some e => if now < e.expiresAt then some e else none
  | none => none

/-- `Modelled from the spec:` one rate-limited request at time `now` for
identity `key`: create a counter of 1 with a 24h expiry on the first
request of the day, increment it (keeping the expiry) otherwise. Returns
the count charged to this request and the updated cache. -/
def rlRequest (cache : RLCache) (key : Str) (now : Nat) : Nat × RLCache :=
  match liveEntry cache key now with
  | none => (1, cacheSet cache key ⟨1, now + DAY_SECONDS⟩)
  | some e => (e.count + 1, cacheSet cache key ⟨e.count + 1, e.expiresAt⟩)

/-! ## Concrete sample inputs used by witnesses and counterexamples -/
/-- Empty browser storage. -/
def emptyState : BrowserState := ⟨[], []⟩

/-- A sample text vent request. -/
def sampleReq : VentRequest := ⟨Mode.text, "hello".data⟩

/-- A rate-limited response. -/
def resp429 : Response := ⟨429, [], none⟩

/-- A successful response whose stream ends with `[DONE]`. -/
def respDone : Response :=
  ⟨200, [("X-Session-ID".data, "s1".data), ("X-Remaining-Vents".data, "7".data)],
    some ["data: [DONE]\n".data]⟩

/-- A successful response whose stream ends without any sentinel. -/
def respNoSentinel : Response := ⟨200, [], some ["data: hi\n".data]⟩

/-- A successful response with a hexadecimal `X-Remaining-Vents` header. -/
def respHex : Response :=
  ⟨200, [("X-Session-ID".data, "s1".data), ("X-Remaining-Vents".data, "0x10".data)],
    some ["data: [DONE]\n".data]⟩

/-- A failing response that nevertheless carries a session id header. -/
def resp500sid : Response := ⟨500, [("X-Session-ID".data, "abc".data)], some []⟩

/-- A successful response whose SSE lines are split across chunk
boundaries. -/
def respSplit : Response :=
  ⟨200, [], some ["data: he".data, "llo\nignored\ndata: [DO".data, "NE]\n".data]⟩

theorem splitNL_ne_nil (s : Str) : splitNL s ≠ [] := by
  induction s with
  | nil => simp [splitNL]
  | cons c rest ih =>
    simp only [splitNL]
    split
    · simp
    · cases h : splitNL rest with
      | nil => exact absurd h ih
      | cons x xs => simp [mapHead]

theorem mapHead_ne_nil (f : Str → Str) (l : List Str) (h : l ≠ []) :
    mapHead f l ≠ [] := by
  cases l with
  | nil => exact absurd rfl h
  | cons x xs => simp [mapHead]

/-- Every piece produced by `splitNL` is newline-free. -/
theorem splitNL_no_newline (s : Str) : ∀ l ∈ splitNL s, '\n' ∉ l := by
  induction s with
  | nil => intro l hl; simp [splitNL] at hl; simp [hl]
  | cons c rest ih =>
    intro l hl
    by_cases hc : c = '\n'
    · rw [splitNL, if_pos hc] at hl
      simp only [List.mem_cons] at hl
      rcases hl with h | h
      · simp [h]
      · exact ih l h
    · rw [splitNL, if_neg hc] at hl
      cases hsp : splitNL rest with
      | nil => exact absurd hsp (splitNL_ne_nil rest)
      | cons x xs =>
        rw [hsp] at hl
        simp only [mapHead, List.mem_cons] at hl
        rcases hl with h | h
        · subst h
          simp only [List.mem_cons, not_or]
          refine ⟨fun hne => hc hne.symm, ?_⟩
          exact ih x (by rw [hsp]; exact List.mem_cons_self x xs)
        · exact ih l (by rw [hsp]; exact List.mem_cons_of_mem x h)

/-- A newline-free string splits into exactly itself. -/
theorem splitNL_eq_single (s : Str) (h : '\n' ∉ s) : splitNL s = [s] := by
  induction s with
  | nil => simp [splitNL]
  | cons c rest ih =>
    simp only [splitNL]
    have hc : ¬ c = '\n' := by
      intro hc; exact h (by simp [hc])
    rw [if_neg hc, ih (by intro hm; exact h (by simp [hm]))]
    simp [mapHead]

theorem getLastD_mem {α : Type} (l : List α) (d : α) (h : l ≠ []) :
    l.getLastD d ∈ l := by
  induction l with
  | nil => exact absurd rfl h
  | cons x xs ih =>
    cases xs with
    | nil => simp [List.getLastD]
    | cons y ys =>
      have := ih (by simp)
      simp only [List.getLastD] at this ⊢
      exact List.mem_cons_of_mem _ this

/-- How `splitNL` distributes over concatenation: the last piece of the left
part glues onto the first piece of the right part. -/
theorem splitNL_append (a b : Str) :
    splitNL (a ++ b) =
      (splitNL a).dropLast ++
        mapHead (fun l => (splitNL a).getLastD [] ++ l) (splitNL b) := by
  induction a with
  | nil =>
    cases hb : splitNL b with
    | nil => exact absurd hb (splitNL_ne_nil b)
    | cons x xs => simp [splitNL, mapHead, List.getLastD, hb]
  | cons c rest ih =>
    by_cases hc : c = '\n'
    · have h1 : splitNL ((c :: rest) ++ b) = [] :: splitNL (rest ++ b) := by
        rw [List.cons_append, splitNL, if_pos hc]
      have h2 : splitNL (c :: rest) = [] :: splitNL rest := by
        rw [splitNL, if_pos hc]
      rw [h1, h2, ih]
      cases hr : splitNL rest with
      | nil => exact absurd hr (splitNL_ne_nil rest)
      | cons x xs => simp [List.getLastD]
    · have h1 : splitNL ((c :: rest) ++ b) =
          mapHead (fun l => c :: l) (splitNL (rest ++ b)) := by
        rw [List.cons_append, splitNL, if_neg hc]
      have h2 : splitNL (c :: rest) = mapHead (fun l => c :: l) (splitNL rest) := by
        rw [splitNL, if_neg hc]
      rw [h1, h2, ih]
      cases hr : splitNL rest with
      | nil => exact absurd hr (splitNL_ne_nil rest)
      | cons x xs =>
        cases xs with
        | nil =>
          cases hb : splitNL b with
          | nil => exact absurd hb (splitNL_ne_nil b)
          | cons y ys => simp [mapHead, List.getLastD]
        | cons x2 xs2 =>
          simp [mapHead, List.getLastD, List.dropLast]

/-- Full characterization of the inner line loop: it emits one token per
pre-sentinel payload, then the terminal event of the first sentinel. -/
theorem processLines_eq (meta : VentMetadata) (lines : List Str) :
    processLines meta lines =
      ((tokensBeforeSentinel (payloadsOf lines)).map Event.token ++
          termEvents meta (firstSentinel (payloadsOf lines)),
        termStatus (firstSentinel (payloadsOf lines))) := by
  induction lines with
  | nil => simp [processLines, payloadsOf, tokensBeforeSentinel, firstSentinel,
      termEvents, termStatus]
  | cons line rest ih =>
    by_cases hp : "data: ".data.isPrefixOf line
    · have hpl : payloadsOf (line :: rest) = line.drop 6 :: payloadsOf rest := by
        simp [payloadsOf, linePayload, hp]
      by_cases hd : line.drop 6 = "[DONE]".data
      · simp [processLines, hp, hd, hpl, tokensBeforeSentinel, isSentinel,
          firstSentinel, termEvents, termStatus]
      · by_cases he : line.drop 6 = "[ERROR]".data
        · simp [processLines, hp, hd, he, hpl, tokensBeforeSentinel, isSentinel,
            firstSentinel, termEvents, termStatus]
        · simp [processLines, hp, hd, he, hpl, tokensBeforeSentinel, isSentinel,
            firstSentinel, ih]
    · have hpl : payloadsOf (line :: rest) = payloadsOf rest := by
        simp [payloadsOf, linePayload, hp]
      simp [processLines, hp, hpl, ih]

/-- The inner loop over concatenated line lists: the second part only runs
when the first finished without a sentinel. -/
theorem processLines_append (meta : VentMetadata) (l1 l2 : List Str) :
    processLines meta (l1 ++ l2) =
      if (processLines meta l1).2 = .more then
        ((processLines meta l1).1 ++ (processLines meta (l2 : List Str)).1,
          (processLines meta l2).2)
      else processLines meta l1 := by
  induction l1 with
  | nil => simp [processLines]
  | cons line rest ih =>
    by_cases hp : "data: ".data.isPrefixOf line
    · by_cases hd : line.drop 6 = "[DONE]".data
      · simp [processLines, hp, hd]
      · by_cases he : line.drop 6 = "[ERROR]".data
        · simp [processLines, hp, hd, he]
        · simp only [List.cons_append, processLines, hp, if_true, hd, he,
            if_false, ite_false, ite_true]
          rw [show List.append rest l2 = rest ++ l2 from rfl, ih]
          by_cases hm : (processLines meta rest).2 = StreamStatus.more <;>
            simp [hm]
    · simp only [List.cons_append, processLines, hp, if_false, ite_false]
      exact ih

theorem dropLast_append_left {α : Type} (l1 l2 : List α) (h : l2 ≠ []) :
    (l1 ++ l2).dropLast = l1 ++ l2.dropLast := by
  induction l1 with
  | nil => rfl
  | cons x xs ih =>
    cases hx : xs ++ l2 with
    | nil =>
      cases l2 with
      | nil => exact absurd rfl h
      | cons y ys => simp at hx
    | cons z zs =>
      have h1 : ((x :: xs) ++ l2).dropLast = x :: (xs ++ l2).dropLast := by
        rw [List.cons_append, hx]
        rfl
      rw [h1, ih, List.cons_append]

/-- The chunked read loop equals one pass of the line loop over the
complete lines of the whole stream (for a newline-free carry buffer). -/
theorem runStream_eq (meta : VentMetadata) (chunks : List Str) :
    ∀ buffer : Str, '\n' ∉ buffer →
      runStream meta buffer chunks =
        processLines meta (completeLines (buffer ++ joinChunks chunks)) := by
  induction chunks with
  | nil =>
    intro buffer hnf
    have : buffer ++ joinChunks [] = buffer := by simp [joinChunks]
    rw [this, runStream, completeLines, splitNL_eq_single buffer hnf]
    simp [processLines]
  | cons chunk rest ih =>
    intro buffer hnf
    have hjoin : buffer ++ joinChunks (chunk :: rest) =
        (buffer ++ chunk) ++ joinChunks rest := by
      simp [joinChunks, List.append_assoc]
    have hnbnf : '\n' ∉ (splitNL (buffer ++ chunk)).getLastD [] :=
      splitNL_no_newline _ _ (getLastD_mem _ _ (splitNL_ne_nil _))
    have hsplit : completeLines ((buffer ++ chunk) ++ joinChunks rest) =
        (splitNL (buffer ++ chunk)).dropLast ++
          completeLines ((splitNL (buffer ++ chunk)).getLastD [] ++
            joinChunks rest) := by
      rw [completeLines, splitNL_append (buffer ++ chunk) (joinChunks rest)]
      have h2 : splitNL ((splitNL (buffer ++ chunk)).getLastD [] ++
            joinChunks rest) =
          mapHead (fun l => (splitNL (buffer ++ chunk)).getLastD [] ++ l)
            (splitNL (joinChunks rest)) := by
        rw [splitNL_append _ (joinChunks rest), splitNL_eq_single _ hnbnf]
        simp [List.getLastD]
      rw [completeLines, h2]
      have hne : mapHead (fun l => (splitNL (buffer ++ chunk)).getLastD [] ++ l)
          (splitNL (joinChunks rest)) ≠ [] :=
        mapHead_ne_nil _ _ (splitNL_ne_nil _)
      rw [dropLast_append_left _ _ hne]
    rw [hjoin, hsplit, processLines_append]
    rw [runStream]
    rw [ih _ hnbnf]
    cases hm2 : (processLines meta (splitNL (buffer ++ chunk)).dropLast).2 with
    | more => simp [hm2]
    | finished =>
      simp only [hm2]
      rw [if_neg (by simp), ← hm2]
    | failed =>
      simp only [hm2]
      rw [if_neg (by simp), ← hm2]

/-! ## Branch behaviour of `streamVent` -/
/-- A rejected fetch surfaces as a single `onError` with the error's
message, leaving storage untouched. -/
theorem streamVent_fetchError (st : BrowserState) (auth : Option (Option Str))
    (msg : Str) (req : VentRequest) :
    (streamVent st auth (.error msg) req).events = [Event.error msg] ∧
      (streamVent st auth (.error msg) req).state = st := by
  exact ⟨rfl, rfl⟩

theorem status_429_not_ok (resp : Response) (h : resp.status = 429) :
    resp.ok = false := by
  simp [Response.ok, h]

/-- The 429 branch: one `onError` with the rate-limit message, storage
untouched. -/
theorem streamVent_429 (st : BrowserState) (auth : Option (Option Str))
    (resp : Response) (req : VentRequest) (h : resp.status = 429) :
    (streamVent st auth (.ok resp) req).events = [Event.error limitMsg] ∧
      (streamVent st auth (.ok resp) req).state = st := by
  have hok := status_429_not_ok resp h
  constructor <;> simp [streamVent, hok, h]

/-- Any other non-2xx status: one `onError` with the generic API-error
message, storage untouched. -/
theorem streamVent_notOk (st : BrowserState) (auth : Option (Option Str))
    (resp : Response) (req : VentRequest) (hok : resp.ok = false)
    (h429 : resp.status ≠ 429) :
    (streamVent st auth (.ok resp) req).events =
        [Event.error ("API error: ".data ++ (Nat.repr resp.status).data)] ∧
      (streamVent st auth (.ok resp) req).state = st := by
  constructor <;> simp [streamVent, hok, h429]

/-- A 2xx response with a `null` body: one `onError` with the no-body
message (header-derived ids are stored first). -/
theorem streamVent_noBody (st : BrowserState) (auth : Option (Option Str))
    (resp : Response) (req : VentRequest) (hok : resp.ok = true)
    (hbody : resp.body = none) :
    (streamVent st auth (.ok resp) req).events = [Event.error noBodyMsg] := by
  simp [streamVent, hok, hbody]

/-- A 2xx response with a body: the events are exactly one run of the
chunked read loop. -/
theorem streamVent_okBody (st : BrowserState) (auth : Option (Option Str))
    (resp : Response) (req : VentRequest) (chunks : List Str)
    (hok : resp.ok = true) (hbody : resp.body = some chunks) :
    (streamVent st auth (.ok resp) req).events =
      (runStream (responseMeta resp) [] chunks).1 := by
  simp [streamVent, hok, hbody]

/-- Events of a 2xx-with-body call, phrased over the whole stream: one
token per complete pre-sentinel data-line payload, then the terminal
event of the first sentinel. -/
theorem streamVent_okBody_events (st : BrowserState) (auth : Option (Option Str))
    (resp : Response) (req : VentRequest) (chunks : List Str)
    (hok : resp.ok = true) (hbody : resp.body = some chunks) :
    (streamVent st auth (.ok resp) req).events =
      (tokensBeforeSentinel (payloadsOf (completeLines (joinChunks chunks)))).map
          Event.token ++
        termEvents (responseMeta resp)
          (firstSentinel (payloadsOf (completeLines (joinChunks chunks)))) := by
  rw [streamVent_okBody st auth resp req chunks hok hbody]
  rw [runStream_eq (responseMeta resp) chunks [] (by simp)]
  rw [show ([] : Str) ++ joinChunks chunks = joinChunks chunks from rfl]
  rw [processLines_eq]

/-! ## Storage lemmas -/
theorem getItem_setItem_self (m : List (Str × Str)) (k v : Str) :
    getItem (setItem m k v) k = some v := by
  induction m with
  | nil => simp [setItem, getItem]
  | cons p rest ih =>
    obtain ⟨k', v'⟩ := p
    by_cases h : k' = k <;> simp [setItem, getItem, h, ih]

theorem getItem_setItem_other (m : List (Str × Str)) (k v k' : Str)
    (h : k' ≠ k) : getItem (setItem m k v) k' = getItem m k' := by
  have h' : ¬ k = k' := fun hh => h hh.symm
  induction m with
  | nil => simp [setItem, getItem, h']
  | cons p rest ih =>
    obtain ⟨k0, v0⟩ := p
    by_cases h0 : k0 = k
    · subst h0
      simp [setItem, getItem, h']
    · simp [setItem, getItem, h0, ih]

theorem getItem_removeItem_self (m : List (Str × Str)) (k : Str) :
    getItem (removeItem m k) k = none := by
  induction m with
  | nil => simp [removeItem, getItem]
  | cons p rest ih =>
    obtain ⟨k0, v0⟩ := p
    by_cases h0 : k0 = k <;>
      simp_all [removeItem, getItem, List.filter]

theorem getItem_removeItem_other (m : List (Str × Str)) (k k' : Str)
    (h : k' ≠ k) : getItem (removeItem m k) k' = getItem m k' := by
  induction m with
  | nil => simp [removeItem, getItem]
  | cons p rest ih =>
    obtain ⟨k0, v0⟩ := p
    by_cases h0 : k0 = k
    · subst h0
      have : ¬ k0 = k' := fun hh => h hh.symm
      simp_all [removeItem, getItem, List.filter]
    · by_cases h1 : k0 = k' <;> simp_all [removeItem, getItem, List.filter]

/-! ## Session storage behaviour of `streamVent` -/
/-- A 2xx response with a non-empty `X-Session-ID` header stores that id
in `sessionStorage` (whatever the body holds). -/
theorem streamVent_stores_session (st : BrowserState)
    (auth : Option (Option Str)) (resp : Response) (req : VentRequest)
    (hok : resp.ok = true) (hsid : (responseMeta resp).sessionId ≠ []) :
    (streamVent st auth (.ok resp) req).state.sessionStore =
      setItem st.sessionStore SESSION_ID_KEY (responseMeta resp).sessionId := by
  by_cases hu : (responseMeta resp).userId = [] <;>
    cases hb : resp.body <;>
      simp [streamVent, hok, hb, hsid, hu, storeSessionId, storeUserId]

/-- A call whose response has an empty or absent `X-Session-ID` header
leaves `sessionStorage` unchanged. -/
theorem streamVent_keeps_session_of_empty (st : BrowserState)
    (auth : Option (Option Str)) (resp : Response) (req : VentRequest)
    (hsid : (responseMeta resp).sessionId = []) :
    (streamVent st auth (.ok resp) req).state.sessionStore =
      st.sessionStore := by
  by_cases hok : resp.ok
  · by_cases hu : (responseMeta resp).userId = [] <;>
      cases hb : resp.body <;>
        simp [streamVent, hok, hb, hsid, hu, storeSessionId, storeUserId]
  · by_cases h4 : resp.status = 429 <;>
      simp [streamVent, Bool.of_not_eq_true hok, h4]

/-- A non-2xx response leaves `sessionStorage` unchanged (the throw
happens before any header is read). -/
theorem streamVent_keeps_session_of_notOk (st : BrowserState)
    (auth : Option (Option Str)) (resp : Response) (req : VentRequest)
    (hok : resp.ok = false) :
    (streamVent st auth (.ok resp) req).state.sessionStore =
      st.sessionStore := by
  by_cases h4 : resp.status = 429 <;> simp [streamVent, hok, h4]

/-- A call with a stored non-empty session id sends it as the
`X-Session-ID` request header. -/
theorem requestHeaders_session (st : BrowserState) (auth : Option (Option Str))
    (s : Str) (hs : getStoredSessionId st = some s) (hne : s ≠ []) :
    headersGet (requestHeaders st auth) "X-Session-ID".data = some s := by
  have h1 : ("Content-Type".data : Str) ≠ "X-Session-ID".data := by decide
  rcases auth with _ | ot
  · simp [requestHeaders, hs, hne, headersGet, h1]
  · rcases ot with _ | t
    · simp [requestHeaders, hs, hne, headersGet, h1]
    · by_cases ht : t = [] <;>
        simp [requestHeaders, hs, hne, ht, headersGet, h1]

/-- With no stored session id (or an empty one), no `X-Session-ID`
request header is sent. -/
theorem requestHeaders_no_session (st : BrowserState)
    (auth : Option (Option Str))
    (hs : ∀ s, getStoredSessionId st = some s → s = []) :
    headersGet (requestHeaders st auth) "X-Session-ID".data = none := by
  have h1 : ("Content-Type".data : Str) ≠ "X-Session-ID".data := by decide
  have h2 : ("Authorization".data : Str) ≠ "X-Session-ID".data := by decide
  rcases hss : getStoredSessionId st with _ | s
  · rcases auth with _ | ot
    · simp [requestHeaders, hss, headersGet, h1]
    · rcases ot with _ | t
      · simp [requestHeaders, hss, headersGet, h1]
      · by_cases ht : t = [] <;>
          simp [requestHeaders, hss, ht, headersGet, h1, h2]
  · have hsE : s = [] := hs s hss
    rcases auth with _ | ot
    · simp [requestHeaders, hss, hsE, headersGet, h1]
    · rcases ot with _ | t
      · simp [requestHeaders, hss, hsE, headersGet, h1]
      · by_cases ht : t = [] <;>
          simp [requestHeaders, hss, hsE, ht, headersGet, h1, h2]

theorem cacheLookup_cacheSet_self (m : RLCache) (k : Str) (e : CacheEntry) :
    cacheLookup (cacheSet m k e) k = some e := by
  induction m with
  | nil => simp [cacheSet, cacheLookup]
  | cons p rest ih =>
    obtain ⟨k0, e0⟩ := p
    by_cases h : k0 = k <;> simp [cacheSet, cacheLookup, h, ih]

/-! ## Further supporting lemmas -/
/-- Every branch of `streamVent` issues exactly the one recorded request. -/
theorem streamVent_requests (st : BrowserState) (auth : Option (Option Str))
    (fr : Except Str Response) (req : VentRequest) :
    (streamVent st auth fr req).requests =
      [{ path := "/api/vent".data
         headers := requestHeaders st auth
         body := stringifyVentRequest req }] := by
  rcases fr with msg | resp
  · rfl
  · by_cases hok : resp.ok
    · cases hb : resp.body <;> simp [streamVent, hok, hb]
    · by_cases h4 : resp.status = 429 <;>
        simp [streamVent, Bool.of_not_eq_true hok, h4]

theorem complete_notin_tokens (ts : List Str) (m : VentMetadata) :
    Event.complete m ∉ ts.map Event.token := by
  simp

theorem error_notin_tokens (ts : List Str) (msg : Str) :
    Event.error msg ∉ ts.map Event.token := by
  simp

theorem countP_tokens_complete (ts : List Str) :
    (ts.map Event.token).countP Event.isComplete = 0 := by
  induction ts with
  | nil => rfl
  | cons t rest ih => simp [List.countP_cons, Event.isComplete, ih]

theorem countP_tokens_error (ts : List Str) :
    (ts.map Event.token).countP Event.isError = 0 := by
  induction ts with
  | nil => rfl
  | cons t rest ih => simp [List.countP_cons, Event.isError, ih]

theorem filterMap_tokenOf_map_token (ts : List Str) :
    (ts.map Event.token).filterMap Event.tokenOf = ts := by
  induction ts with
  | nil => rfl
  | cons t rest ih => simp [List.filterMap_cons, Event.tokenOf, ih]

theorem optIsStr_iff (o : Option Json) (s : Str) :
    optIsStr o s = true ↔ o = some (Json.jstr s) := by
  cases o with
  | none => simp [optIsStr]
  | some jv => cases jv <;> simp [optIsStr]

/-! ## Claims -/
/-- C3: a 429 response makes `streamVent` invoke `onError` exactly once
with the rate-limit message, invoke neither `onToken` nor `onComplete`,
never read the response body, and issue exactly one request (no retry). -/
theorem c3_rate_limit_429 (st : BrowserState) (auth : Option (Option Str))
    (resp : Response) (req : VentRequest) (h429 : resp.status = 429) :
    (streamVent st auth (.ok resp) req).events = [Event.error limitMsg] ∧
      (streamVent st auth (.ok resp) req).requests.length = 1 ∧
      ∀ body2 : Option (List Str),
        streamVent st auth (.ok { resp with body := body2 }) req =
          streamVent st auth (.ok resp) req := by
  have hok := status_429_not_ok resp h429
  refine ⟨(streamVent_429 st auth resp req h429).1, ?_, ?_⟩
  · rw [streamVent_requests]
    rfl
  · intro body2
    simp [streamVent, Response.ok, h429]

/-- C3 witness at a concrete 429 response. -/
theorem c3_witness :
    (streamVent emptyState none (.ok resp429) sampleReq).events =
      [Event.error limitMsg] :=
  (c3_rate_limit_429 emptyState none resp429 sampleReq (by decide)).1

/-- C5: `checkHealth` returns true exactly when the fetch-and-parse
succeeded and the body's `status` field is the string `"healthy"` or
`"degraded"`; every thrown error yields `false` (the function itself
never throws, being total). -/
theorem c5_checkHealth (fr : Except Unit Json) :
    (checkHealth fr = true ↔
      ∃ j s, fr = .ok j ∧ Json.get j "status".data = some (Json.jstr s) ∧
        (s = "healthy".data ∨ s = "degraded".data)) ∧
    ∀ e : Unit, checkHealth (.error e) = false := by
  constructor
  · cases fr with
    | error e => simp [checkHealth]
    | ok j =>
      simp only [checkHealth, Bool.or_eq_true, optIsStr_iff]
      constructor
      · rintro (h | h)
        · exact ⟨j, "healthy".data, rfl, h, Or.inl rfl⟩
        · exact ⟨j, "degraded".data, rfl, h, Or.inr rfl⟩
      · rintro ⟨j2, s, hj, hget, hs⟩
        cases hj
        rcases hs with hs | hs <;> rw [hs] at hget
        · exact Or.inl hget
        · exact Or.inr hget
  · intro e
    rfl

/-- C6: every request body handed to `POST /api/vent` is the JSON
serialization of `{mode, content}` with mode `text` or `voice`; the
text submit handler sends nothing when the trimmed text is empty and
otherwise sends mode `text` with the content unchanged. -/
theorem c6_request_shape (ventText : Str) (st : BrowserState)
    (auth : Option (Option Str)) (fr : Except Str Response) (req : VentRequest) :
    ((streamVent st auth fr req).requests.map RequestRecord.body =
      [stringifyVentRequest req]) ∧
    (req.mode = Mode.text ∨ req.mode = Mode.voice) ∧
    (jsTrim ventText = [] → handleRelease ventText = none) ∧
    (jsTrim ventText ≠ [] →
      handleRelease ventText = some ⟨Mode.text, ventText⟩) := by
  refine ⟨?_, ?_, ?_, ?_⟩
  · rw [streamVent_requests]
    rfl
  · obtain ⟨m, c⟩ := req
    cases m
    · exact Or.inl rfl
    · exact Or.inr rfl
  · intro h
    simp [handleRelease, h]
  · intro h
    simp [handleRelease, h]

/-- C6 witness: empty and non-empty submissions, concrete serialization. -/
theorem c6_witness :
    handleRelease "  ".data = none ∧
      handleRelease "hi".data = some ⟨Mode.text, "hi".data⟩ ∧
      (streamVent emptyState none (.error "x".data) sampleReq).requests.map
          RequestRecord.body = [stringifyVentRequest sampleReq] := by
  have h1 := c6_request_shape "  ".data emptyState none (.error "x".data) sampleReq
  have h2 := c6_request_shape "hi".data emptyState none (.error "x".data) sampleReq
  exact ⟨h1.2.2.1 (by decide), h2.2.2.2 (by decide), h1.1⟩

/-- C7 (spec-modelled): the PII scrubber is the ordered composition of
the six pattern substitutions (emails, phones, SSNs, cards, IPs, dates),
it runs before the text is forwarded to the LLM or logged, it is
deterministic and stateless, and it removes matched PII. -/
theorem c7_pii_scrub (s : Str) :
    (processVentText s).forwardedToLLM = scrubPII s ∧
    (processVentText s).loggedText = scrubPII s ∧
    scrubPII s =
      scrubWith matchDate "[DATE]".data
        (scrubWith matchIP "[IP]".data
          (scrubWith matchCard "[CARD]".data
            (scrubWith matchSSN "[SSN]".data
              (scrubWith matchPhone "[PHONE]".data
                (scrubWith matchEmail "[EMAIL]".data s))))) ∧
    (∀ t, t = s → scrubPII t = scrubPII s) ∧
    scrubPII "my ssn is 123-45-6789, email a.b@mail.com".data =
      "my ssn is [SSN], email [EMAIL]".data := by
  refine ⟨rfl, rfl, rfl, ?_, by decide⟩
  intro t ht
  rw [ht]

/-- C7 witness at a concrete input. -/
theorem c7_witness :
    (processVentText "hi a@b.co".data).forwardedToLLM =
        scrubPII "hi a@b.co".data ∧
      scrubPII "hi a@b.co".data = scrubPII "hi a@b.co".data :=
  ⟨(c7_pii_scrub "hi a@b.co".data).1,
    (c7_pii_scrub "hi a@b.co".data).2.2.2.1 "hi a@b.co".data rfl⟩

/-- C8 (spec-modelled): the rate-limit counter is created at 1 with a 24h
expiry on the first live request, incremented by one while live, invisible
once 24h have passed, and a request after expiry starts again at 1. -/
theorem c8_rate_limit_lifecycle (cache : RLCache) (key : Str) (now : Nat) :
    (liveEntry cache key now = none →
      rlRequest cache key now = (1, cacheSet cache key ⟨1, now + DAY_SECONDS⟩)) ∧
    (∀ e, liveEntry cache key now = some e →
      rlRequest cache key now =
        (e.count + 1, cacheSet cache key ⟨e.count + 1, e.expiresAt⟩)) ∧
    (∀ t, t < now + DAY_SECONDS →
      liveEntry (cacheSet cache key ⟨1, now + DAY_SECONDS⟩) key t =
        some ⟨1, now + DAY_SECONDS⟩) ∧
    (∀ t, now + DAY_SECONDS ≤ t →
      liveEntry (cacheSet cache key ⟨1, now + DAY_SECONDS⟩) key t = none) ∧
    (∀ t, now + DAY_SECONDS ≤ t →
      (rlRequest (cacheSet cache key ⟨1, now + DAY_SECONDS⟩) key t).1 = 1) := by
  refine ⟨?_, ?_, ?_, ?_, ?_⟩
  · intro h
    simp [rlRequest, h]
  · intro e h
    simp [rlRequest, h]
  · intro t ht
    simp [liveEntry, cacheLookup_cacheSet_self, ht]
  · intro t ht
    have hnt : ¬ t < now + DAY_SECONDS := by omega
    simp [liveEntry, cacheLookup_cacheSet_self, hnt]
  · intro t ht
    have hnt : ¬ t < now + DAY_SECONDS := by omega
    have h0 : liveEntry (cacheSet cache key ⟨1, now + DAY_SECONDS⟩) key t = none := by
      simp [liveEntry, cacheLookup_cacheSet_self, hnt]
    simp [rlRequest, h0]

/-- C8 witness: first request creates the counter; 24h later it is reset. -/
theorem c8_witness :
    rlRequest [] "k".data 0 = (1, cacheSet [] "k".data ⟨1, 0 + DAY_SECONDS⟩) ∧
      (rlRequest (cacheSet [] "k".data ⟨1, 0 + DAY_SECONDS⟩) "k".data 86400).1 = 1 := by
  have h := c8_rate_limit_lifecycle [] "k".data 0
  exact ⟨h.1 (by decide), h.2.2.2.2 86400 (by decide)⟩

/-- C9: `clearSession` removes exactly the `ventvault_session_id` entry
of `sessionStorage`; `localStorage` (and the stored user id in it) is
untouched, as is every other sessionStorage key. -/
theorem c9_clearSession_frame (st : BrowserState) :
    (clearSession st).localStore = st.localStore ∧
    getItem (clearSession st).localStore USER_ID_KEY =
      getItem st.localStore USER_ID_KEY ∧
    getItem (clearSession st).sessionStore SESSION_ID_KEY = none ∧
    ∀ k, k ≠ SESSION_ID_KEY →
      getItem (clearSession st).sessionStore k = getItem st.sessionStore k := by
  refine ⟨rfl, rfl, ?_, ?_⟩
  · exact getItem_removeItem_self st.sessionStore SESSION_ID_KEY
  · intro k hk
    exact getItem_removeItem_other st.sessionStore SESSION_ID_KEY k hk

/-- C9 witness at a storage holding both ids. -/
theorem c9_witness :
    getItem (clearSession ⟨[(SESSION_ID_KEY, "sid".data)],
        [(USER_ID_KEY, "uid".data)]⟩).sessionStore SESSION_ID_KEY = none ∧
      getItem (clearSession ⟨[(SESSION_ID_KEY, "sid".data)],
        [(USER_ID_KEY, "uid".data)]⟩).localStore USER_ID_KEY =
        some "uid".data ∧
      getItem (clearSession ⟨[(SESSION_ID_KEY, "sid".data)],
        [(USER_ID_KEY, "uid".data)]⟩).sessionStore "other".data =
        getItem (⟨[(SESSION_ID_KEY, "sid".data)],
          [(USER_ID_KEY, "uid".data)]⟩ : BrowserState).sessionStore
          "other".data := by
  have h := c9_clearSession_frame
    ⟨[(SESSION_ID_KEY, "sid".data)], [(USER_ID_KEY, "uid".data)]⟩
  refine ⟨h.2.2.1, ?_, h.2.2.2 "other".data (by decide)⟩
  rw [h.2.1]
  decide

/-- C2: each complete newline-terminated `data:` line whose payload is not
a sentinel produces exactly one `onToken` with the payload verbatim, in
stream order; other lines are ignored; nothing is forwarded after the
first sentinel. -/
theorem c2_token_forwarding (st : BrowserState) (auth : Option (Option Str))
    (resp : Response) (req : VentRequest) (chunks : List Str)
    (hok : resp.ok = true) (hbody : resp.body = some chunks) :
    ((streamVent st auth (.ok resp) req).events.filterMap Event.tokenOf =
      tokensBeforeSentinel (payloadsOf (completeLines (joinChunks chunks)))) ∧
    ((streamVent st auth (.ok resp) req).events =
      (tokensBeforeSentinel (payloadsOf (completeLines (joinChunks chunks)))).map
          Event.token ++
        termEvents (responseMeta resp)
          (firstSentinel (payloadsOf (completeLines (joinChunks chunks))))) := by
  have he := streamVent_okBody_events st auth resp req chunks hok hbody
  refine ⟨?_, he⟩
  rw [he, List.filterMap_append, filterMap_tokenOf_map_token]
  have hterm : (termEvents (responseMeta resp)
      (firstSentinel (payloadsOf (completeLines (joinChunks chunks))))).filterMap
        Event.tokenOf = [] := by
    cases hfs : firstSentinel (payloadsOf (completeLines (joinChunks chunks))) with
    | none => rfl
    | some s => cases s <;> rfl
  rw [hterm, List.append_nil]

/-- C2 witness: SSE lines split across three chunks still produce exactly
the one token `"hello"`. -/
theorem c2_witness :
    (streamVent emptyState none (.ok respSplit) sampleReq).events.filterMap
        Event.tokenOf =
      tokensBeforeSentinel (payloadsOf (completeLines (joinChunks
        ["data: he".data, "llo\nignored\ndata: [DO".data, "NE]\n".data]))) :=
  (c2_token_forwarding emptyState none respSplit sampleReq
    ["data: he".data, "llo\nignored\ndata: [DO".data, "NE]\n".data]
    (by decide) rfl).1

/-- C4 counterexample: with `X-Remaining-Vents: 0x10`, the code's
`parseInt` yields 16, while the claim's base-10 parse of the header
yields 0, so the metadata does not carry the base-10 parse. -/
theorem c4_counterexample :
    (streamVent emptyState none (.ok respHex) sampleReq).events =
      [Event.complete ⟨"s1".data, [], some 16⟩] ∧
    headersGet respHex.headers "X-Remaining-Vents".data = some "0x10".data ∧
    specBase10Parse "0x10".data = some 0 ∧
    (some (16 : Int) ≠ some (0 : Int)) := by
  decide

/-- C4 (amended): the metadata handed to `onComplete` is exactly the one
read from the response headers — sessionId is the `X-Session-ID` value
(empty when absent) and remainingVents is JavaScript `parseInt` (base 10
with the `0x` hexadecimal exception, `NaN` for no digits) of the
`X-Remaining-Vents` value, with `"0"` substituted when the header is
absent or empty. -/
theorem c4_metadata (st : BrowserState) (auth : Option (Option Str))
    (resp : Response) (req : VentRequest) (m : VentMetadata)
    (hok : resp.ok = true)
    (hm : Event.complete m ∈ (streamVent st auth (.ok resp) req).events) :
    m = responseMeta resp ∧
    m.sessionId = (headersGet resp.headers "X-Session-ID".data).getD [] ∧
    m.remainingVents =
      parseIntJS (jsOrStr (headersGet resp.headers "X-Remaining-Vents".data)
        "0".data) := by
  have hmr : m = responseMeta resp := by
    cases hb : resp.body with
    | none =>
      rw [streamVent_noBody st auth resp req hok hb] at hm
      simp at hm
    | some chunks =>
      rw [streamVent_okBody_events st auth resp req chunks hok hb] at hm
      rcases List.mem_append.mp hm with h | h
      · exact absurd h (complete_notin_tokens _ _)
      · cases hfs : firstSentinel (payloadsOf (completeLines (joinChunks chunks))) with
        | none =>
          rw [hfs] at h
          simp [termEvents] at h
        | some s =>
          cases s with
          | done =>
            rw [hfs] at h
            simp [termEvents] at h
            exact h
          | err =>
            rw [hfs] at h
            simp [termEvents] at h
  exact ⟨hmr, by rw [hmr]; rfl, by rw [hmr]; rfl⟩

/-- C4 witness at a `[DONE]` stream with decimal headers. -/
theorem c4_witness :
    (⟨"s1".data, [], some 7⟩ : VentMetadata).sessionId =
        (headersGet respDone.headers "X-Session-ID".data).getD [] ∧
      (⟨"s1".data, [], some 7⟩ : VentMetadata).remainingVents =
        parseIntJS (jsOrStr (headersGet respDone.headers
          "X-Remaining-Vents".data) "0".data) := by
  have h := c4_metadata emptyState none respDone sampleReq
    ⟨"s1".data, [], some 7⟩ (by decide) (by decide)
  exact ⟨h.2.1, h.2.2⟩

/-- C10 counterexample: a non-2xx response carrying a non-empty
`X-Session-ID` header stores nothing (the 500 throw happens before the
headers are read), so the subsequent call sends no `X-Session-ID`
request header — contrary to the claim, which only requires the
response to have carried the header. -/
theorem c10_counterexample :
    headersGet resp500sid.headers "X-Session-ID".data = some "abc".data ∧
    "abc".data ≠ ([] : Str) ∧
    ((streamVent (streamVent emptyState none (.ok resp500sid) sampleReq).state
        none (.ok respDone) sampleReq).requests.map
        (fun r => headersGet r.headers "X-Session-ID".data) = [none]) := by
  decide

/-- C10 (amended): a *successful* (2xx) response with a non-empty
`X-Session-ID` header stores that id, and any later call made from that
storage sends it back as the `X-Session-ID` request header; a response
with an empty or absent header — or a failed response — leaves the
stored id unchanged. -/
theorem c10_session_roundtrip (st : BrowserState)
    (auth auth2 : Option (Option Str)) (resp : Response)
    (fr2 : Except Str Response) (req req2 : VentRequest) :
    (resp.ok = true → (responseMeta resp).sessionId ≠ [] →
      getStoredSessionId (streamVent st auth (.ok resp) req).state =
        some (responseMeta resp).sessionId ∧
      (streamVent (streamVent st auth (.ok resp) req).state auth2 fr2
          req2).requests.map
          (fun r => headersGet r.headers "X-Session-ID".data) =
        [some (responseMeta resp).sessionId]) ∧
    ((responseMeta resp).sessionId = [] →
      getStoredSessionId (streamVent st auth (.ok resp) req).state =
        getStoredSessionId st) ∧
    (resp.ok = false →
      getStoredSessionId (streamVent st auth (.ok resp) req).state =
        getStoredSessionId st) ∧
    (∀ s, getStoredSessionId st = some s → s ≠ [] →
      (streamVent st auth fr2 req).requests.map
          (fun r => headersGet r.headers "X-Session-ID".data) = [some s]) := by
  refine ⟨?_, ?_, ?_, ?_⟩
  · intro hok hsid
    have hstore := streamVent_stores_session st auth resp req hok hsid
    have hget : getStoredSessionId (streamVent st auth (.ok resp) req).state =
        some (responseMeta resp).sessionId := by
      simp only [getStoredSessionId, hstore]
      exact getItem_setItem_self _ _ _
    refine ⟨hget, ?_⟩
    rw [streamVent_requests]
    simp only [List.map_cons, List.map_nil]
    rw [requestHeaders_session _ auth2 _ hget hsid]
  · intro hsid
    simp only [getStoredSessionId,
      streamVent_keeps_session_of_empty st auth resp req hsid]
  · intro hok
    simp only [getStoredSessionId,
      streamVent_keeps_session_of_notOk st auth resp req hok]
  · intro s hs hne
    rw [streamVent_requests]
    simp only [List.map_cons, List.map_nil]
    rw [requestHeaders_session _ auth _ hs hne]

/-- C10 witness: the id of a successful `[DONE]` response is stored and
echoed on the next request. -/
theorem c10_witness :
    getStoredSessionId (streamVent emptyState none (.ok respDone)
        sampleReq).state = some (responseMeta respDone).sessionId ∧
      (streamVent (streamVent emptyState none (.ok respDone) sampleReq).state
          none (.error "x".data) sampleReq).requests.map
          (fun r => headersGet r.headers "X-Session-ID".data) =
        [some (responseMeta respDone).sessionId] := by
  have h := c10_session_roundtrip emptyState none none respDone
    (.error "x".data) sampleReq sampleReq
  exact h.1 (by decide) (by decide)

theorem countP_comp_complete (ts : List Str) :
    ts.countP (Event.isComplete ∘ Event.token) = 0 := by
  induction ts with
  | nil => rfl
  | cons a l ih => simp [List.countP_cons, Event.isComplete, Function.comp, ih]

theorem countP_comp_error (ts : List Str) :
    ts.countP (Event.isError ∘ Event.token) = 0 := by
  induction ts with
  | nil => rfl
  | cons a l ih => simp [List.countP_cons, Event.isError, Function.comp, ih]

/-- The five C1 facts for a trace consisting of a single error event. -/
theorem single_error_shape (msg : Str) :
    ([Event.error msg].countP Event.isComplete ≤ 1) ∧
    ([Event.error msg].countP Event.isError ≤ 1) ∧
    (¬ ∃ m, Event.complete m ∈ [Event.error msg]) ∧
    (∃ e, Event.error e ∈ [Event.error msg]) := by
  refine ⟨?_, ?_, ?_, ⟨msg, by simp⟩⟩
  · simp [List.countP_cons, Event.isComplete]
  · simp [List.countP_cons, Event.isError]
  · rintro ⟨m, hm⟩
    simp at hm

/-- C1 counterexample: a stream that ends cleanly without any sentinel
invokes neither `onComplete` nor `onError` — the invocation does not
terminate with a sentinel callback, contrary to the claim's dichotomy. -/
theorem c1_counterexample :
    (streamVent emptyState none (.ok respNoSentinel) sampleReq).events =
      [Event.token "hi".data] ∧
    (streamVent emptyState none (.ok respNoSentinel) sampleReq).events.countP
      Event.isComplete = 0 ∧
    (streamVent emptyState none (.ok respNoSentinel) sampleReq).events.countP
      Event.isError = 0 := by
  decide

/-- C1 (amended): each invocation invokes `onComplete` at most once and
`onError` at most once, never both; `onComplete` is invoked exactly when
a `[DONE]` data line is reached first, `onError` exactly when an error
occurs (rejected fetch, non-2xx status, missing body, or an `[ERROR]`
data line reached first); a body that ends without a sentinel invokes
neither. -/
theorem c1_terminal_discipline (st : BrowserState) (auth : Option (Option Str))
    (fr : Except Str Response) (req : VentRequest) :
    ((streamVent st auth fr req).events.countP Event.isComplete ≤ 1) ∧
    ((streamVent st auth fr req).events.countP Event.isError ≤ 1) ∧
    (¬ ((∃ m, Event.complete m ∈ (streamVent st auth fr req).events) ∧
        (∃ e, Event.error e ∈ (streamVent st auth fr req).events))) ∧
    ((∃ m, Event.complete m ∈ (streamVent st auth fr req).events) ↔
      (∃ resp chunks, fr = .ok resp ∧ resp.ok = true ∧
        resp.body = some chunks ∧
        firstSentinel (payloadsOf (completeLines (joinChunks chunks))) =
          some Sentinel.done)) ∧
    ((∃ e, Event.error e ∈ (streamVent st auth fr req).events) ↔
      ((∃ msg, fr = .error msg) ∨
        (∃ resp, fr = .ok resp ∧
          (resp.ok = false ∨
            (resp.ok = true ∧ resp.body = none) ∨
            (∃ chunks, resp.body = some chunks ∧
              firstSentinel (payloadsOf (completeLines (joinChunks chunks))) =
                some Sentinel.err))))) := by
  rcases fr with msg | resp
  · have he : (streamVent st auth (.error msg) req).events =
        [Event.error msg] := rfl
    obtain ⟨s1, s2, s3, s4⟩ := single_error_shape msg
    rw [he]
    refine ⟨s1, s2, fun h => s3 h.1, ?_, ?_⟩
    · constructor
      · intro h
        exact absurd h s3
      · rintro ⟨resp', chunks', heq, -⟩
        exact absurd heq (by simp)
    · constructor
      · intro _
        exact Or.inl ⟨msg, rfl⟩
      · intro _
        exact s4
  · by_cases hok : resp.ok = true
    · cases hb : resp.body with
      | none =>
        have he := streamVent_noBody st auth resp req hok hb
        obtain ⟨s1, s2, s3, s4⟩ := single_error_shape noBodyMsg
        rw [he]
        refine ⟨s1, s2, fun h => s3 h.1, ?_, ?_⟩
        · constructor
          · intro h
            exact absurd h s3
          · rintro ⟨resp', chunks', heq, -, hb', -⟩
            injection heq with h'
            subst h'
            rw [hb] at hb'
            exact absurd hb' (by simp)
        · constructor
          · intro _
            exact Or.inr ⟨resp, rfl, Or.inr (Or.inl ⟨hok, hb⟩)⟩
          · intro _
            exact s4
      | some chunks =>
        have he := streamVent_okBody_events st auth resp req chunks hok hb
        rw [he]
        cases hfs : firstSentinel (payloadsOf (completeLines (joinChunks chunks))) with
        | none =>
          refine ⟨?_, ?_, ?_, ?_, ?_⟩
          · simp [termEvents, countP_tokens_complete, countP_comp_complete]
          · simp [termEvents, countP_tokens_error, countP_comp_error]
          · rintro ⟨⟨m, hm⟩, -⟩
            simp [termEvents] at hm
          · constructor
            · rintro ⟨m, hm⟩
              simp [termEvents] at hm
            · rintro ⟨resp', chunks', heq, -, hb', hfs'⟩
              injection heq with h'
              subst h'
              rw [hb] at hb'
              injection hb' with h''
              subst h''
              rw [hfs] at hfs'
              exact absurd hfs' (by simp)
          · constructor
            · rintro ⟨e, hm⟩
              simp [termEvents] at hm
            · rintro (⟨msg', heq⟩ | ⟨resp', heq, hcase⟩)
              · exact absurd heq (by simp)
              · injection heq with h'
                subst h'
                rcases hcase with hokf | ⟨-, hb'⟩ | ⟨chunks', hb', hfs'⟩
                · rw [hok] at hokf
                  exact absurd hokf (by simp)
                · rw [hb] at hb'
                  exact absurd hb' (by simp)
                · rw [hb] at hb'
                  injection hb' with h''
                  subst h''
                  rw [hfs] at hfs'
                  exact absurd hfs' (by simp)
        | some s =>
          cases s with
          | done =>
            refine ⟨?_, ?_, ?_, ?_, ?_⟩
            · simp [termEvents, List.countP_append, countP_tokens_complete,
                countP_comp_complete, List.countP_cons, Event.isComplete]
            · simp [termEvents, List.countP_append, countP_tokens_error,
                countP_comp_error, List.countP_cons, Event.isError]
            · rintro ⟨-, ⟨e, hm⟩⟩
              rcases List.mem_append.mp hm with h | h
              · exact absurd h (error_notin_tokens _ _)
              · simp [termEvents] at h
            · constructor
              · intro _
                exact ⟨resp, chunks, rfl, hok, hb, hfs⟩
              · intro _
                exact ⟨responseMeta resp, List.mem_append.mpr
                  (Or.inr (by simp [termEvents]))⟩
            · constructor
              · rintro ⟨e, hm⟩
                rcases List.mem_append.mp hm with h | h
                · exact absurd h (error_notin_tokens _ _)
                · simp [termEvents] at h
              · rintro (⟨msg', heq⟩ | ⟨resp', heq, hcase⟩)
                · exact absurd heq (by simp)
                · injection heq with h'
                  subst h'
                  rcases hcase with hokf | ⟨-, hb'⟩ | ⟨chunks', hb', hfs'⟩
                  · rw [hok] at hokf
                    exact absurd hokf (by simp)
                  · rw [hb] at hb'
                    exact absurd hb' (by simp)
                  · rw [hb] at hb'
                    injection hb' with h''
                    subst h''
                    rw [hfs] at hfs'
                    exact absurd hfs' (by simp)
          | err =>
            refine ⟨?_, ?_, ?_, ?_, ?_⟩
            · simp [termEvents, List.countP_append, countP_tokens_complete,
                countP_comp_complete, List.countP_cons, Event.isComplete]
            · simp [termEvents, List.countP_append, countP_tokens_error,
                countP_comp_error, List.countP_cons, Event.isError]
            · rintro ⟨⟨m, hm⟩, -⟩
              rcases List.mem_append.mp hm with h | h
              · exact absurd h (complete_notin_tokens _ _)
              · simp [termEvents] at h
            · constructor
              · rintro ⟨m, hm⟩
                rcases List.mem_append.mp hm with h | h
                · exact absurd h (complete_notin_tokens _ _)
                · simp [termEvents] at h
              · rintro ⟨resp', chunks', heq, -, hb', hfs'⟩
                injection heq with h'
                subst h'
                rw [hb] at hb'
                injection hb' with h''
                subst h''
                rw [hfs] at hfs'
                injection hfs' with h3
                exact absurd h3 (by simp)
            · constructor
              · intro _
                exact Or.inr ⟨resp, rfl, Or.inr (Or.inr ⟨chunks, hb, hfs⟩)⟩
              · intro _
                exact ⟨llmErrMsg, List.mem_append.mpr
                  (Or.inr (by simp [termEvents]))⟩
    · have hokf : resp.ok = false := by
        revert hok
        cases resp.ok <;> simp
      by_cases h4 : resp.status = 429
      · have he := (streamVent_429 st auth resp req h4).1
        obtain ⟨s1, s2, s3, s4⟩ := single_error_shape limitMsg
        rw [he]
        refine ⟨s1, s2, fun h => s3 h.1, ?_, ?_⟩
        · constructor
          · intro h
            exact absurd h s3
          · rintro ⟨resp', chunks', heq, hok', -⟩
            injection heq with h'
            subst h'
            rw [hokf] at hok'
            exact absurd hok' (by simp)
        · constructor
          · intro _
            exact Or.inr ⟨resp, rfl, Or.inl hokf⟩
          · intro _
            exact s4
      · have he := (streamVent_notOk st auth resp req hokf h4).1
        obtain ⟨s1, s2, s3, s4⟩ := single_error_shape
          ("API error: ".data ++ (Nat.repr resp.status).data)
        rw [he]
        refine ⟨s1, s2, fun h => s3 h.1, ?_, ?_⟩
        · constructor
          · intro h
            exact absurd h s3
          · rintro ⟨resp', chunks', heq, hok', -⟩
            injection heq with h'
            subst h'
            rw [hokf] at hok'
            exact absurd hok' (by simp)
        · constructor
          · intro _
            exact Or.inr ⟨resp, rfl, Or.inl hokf⟩
          · intro _
            exact s4

/-- C1 witness: an instantiation of the terminal-discipline theorem. -/
theorem c1_witness :
    (streamVent emptyState none (.ok respDone) sampleReq).events.countP
      Event.isComplete ≤ 1 :=
  (c1_terminal_discipline emptyState none (.ok respDone) sampleReq).1

/-- C5 witness: a degraded health body yields `true`. -/
theorem c5_witness :
    checkHealth (.ok (Json.jobj [("status".data, Json.jstr "degraded".data)]))
      = true :=
  ((c5_checkHealth (.ok (Json.jobj
      [("status".data, Json.jstr "degraded".data)]))).1).mpr
    ⟨Json.jobj [("status".data, Json.jstr "degraded".data)], "degraded".data,
      rfl, rfl, Or.inr rfl⟩

end VentVault
